import Mathlib

/-!
Shallow embedding of `cpp/scripts/verify_submodules.py`.

The script is a straight-line validation pipeline: it reads the `.gitmodules`
manifest (parsed by `configparser`), the `cpp/submodules.lock` lock file
(parsed by a small line-oriented scanner), queries `git submodule status
--recursive`, and cross-checks the three.  We model the script's inputs as a
record (`VerifierInput`) holding the observable data the script reads, and its
behaviour as a pure function `verify` returning the ordered list of printed
diagnostics together with the process exit code.

Conventions of the embedding:
* Python `dict` values are association lists with insert-or-replace semantics
  (`dictInsert` / `dictLookup`), matching dict insertion-order/overwrite
  behaviour for the operations the script performs.
* The lock file text is supplied as its list of lines (`lockLines`), i.e. the
  result of Python's `text.splitlines()`; where the script consults the raw
  text (the substring pre-check at line 91) we rebuild it with
  `String.intercalate "\n"`.
* `fail(msg)` / `warn(msg)` / the final success `print` become `Event.error` /
  `Event.warn` / `Event.info`; the fixed `[verify_submodules] ERROR:` /
  `WARNING:` tags added by `fail` / `warn` are rendering and are not repeated
  in each message.
* `configparser` section option names are assumed already in canonical
  (lower-case) form, as `configparser` stores them.
-/

/-- Python `needle in hay` on lists of characters: `needle` occurs as a
contiguous infix of `hay`. -/
def containsSub : List Char → List Char → Bool
  | hay, needle =>
    if needle.isPrefixOf hay then true
    else
      match hay with
      | [] => false
      | _ :: t => containsSub t needle

/-- Python `str.strip()` with no argument: remove leading and trailing
whitespace. -/
def pyStrip (s : String) : String :=
  String.mk (((s.toList.dropWhile Char.isWhitespace).reverse.dropWhile
    Char.isWhitespace).reverse)

/-- Python `s.startswith(pre)`. -/
def strStartsWith (s pre : String) : Bool :=
  pre.toList.isPrefixOf s.toList

/-- Drop the first `n` characters of `s` (used for `s.split(':', 1)[1]` when
`s` is known to start with an `n`-character marker whose only colon is its
last character). -/
def strDrop (s : String) (n : Nat) : String :=
  String.mk (s.toList.drop n)

/-- Lexicographic `≤` by code point on character lists, Python's string
order. -/
def lexLe : List Char → List Char → Bool
  | [], _ => true
  | _ :: _, [] => false
  | a :: as, b :: bs => if a < b then true else if a = b then lexLe as bs else false

/-- Python `a <= b` on strings. -/
def strLe (a b : String) : Bool := lexLe a.toList b.toList

/-- Stable insertion of `x` into an ascending list, auxiliary to
`pySorted`. -/
def insertLe (x : String) : List String → List String
  | [] => [x]
  | y :: t => if strLe x y then x :: y :: t else y :: insertLe x t

/-- Python `sorted()` on a collection of strings: ascending lexicographic
order on code points. -/
def pySorted : List String → List String
  | [] => []
  | x :: t => insertLe x (pySorted t)

/-- Python `str.strip('"')`: remove every leading and trailing `"`. -/
def stripQuotes (s : String) : String :=
  String.mk (((s.toList.dropWhile (· = '"')).reverse.dropWhile (· = '"')).reverse)

/-- Insert-or-replace into an association list, modelling `d[k] = v` on a
Python `dict` (an existing key keeps its position, a new key goes last). -/
def dictInsert (d : List (String × String)) (k v : String) : List (String × String) :=
  if d.any (fun kv => kv.1 == k) then
    d.map (fun kv => if kv.1 == k then (k, v) else kv)
  else d ++ [(k, v)]

/-- Lookup in an association list, modelling `d.get(k)` / `k in d`. -/
def dictLookup (d : List (String × String)) (k : String) : Option String :=
  (d.find? (fun kv => kv.1 == k)).map (fun kv => kv.2)

/-- `REQUIRED_PATHS` (verify_submodules.py lines 13-18); the Python set is
modelled by this duplicate-free list, its membership being what matters. -/
def REQUIRED_PATHS : List String :=
  ["cpp/third_party/usearch",
   "cpp/third_party/sqlite",
   "cpp/third_party/googletest",
   "cpp/third_party/libtorch-dist"]

/-- The unresolved-pin sentinel literal. -/
def SENTINEL : String := "<PIN_REQUIRED>"

/-- `sorted(REQUIRED_PATHS)` as used by the loops at lines 90, 95 and 106. -/
def sortedRequired : List String :=
  pySorted REQUIRED_PATHS

/-- Recursion of `parse_lock_file` (lines 33-42): `cur` is `current_path`,
`acc` is `pinned_by_path`.  A stripped line starting with `path:` resets the
context to everything after the first colon, stripped; a stripped line
starting with `pinned_commit:` records (stripped, quote-stripped) value for
the current context, if any; other lines are ignored. -/
def parseLockAux : List String → Option String → List (String × String) → List (String × String)
  | [], _, acc => acc
  | raw :: rest, cur, acc =>
    let line := pyStrip raw
    if strStartsWith line "path:" then
      parseLockAux rest (some (pyStrip (strDrop line 5))) acc
    else if strStartsWith line "pinned_commit:" then
      match cur with
      | none => parseLockAux rest none acc
      | some p => parseLockAux rest (some p) (dictInsert acc p (stripQuotes (pyStrip (strDrop line 14))))
    else parseLockAux rest cur acc

/-- `parse_lock_file` (lines 30-43), over the `splitlines()` of the text. -/
def parse_lock_file (lines : List String) : List (String × String) :=
  parseLockAux lines none []

/-- Lower-case hexadecimal digit, the character class `[0-9a-f]`. -/
def isHexLower (c : Char) : Bool := c.isDigit || ('a' ≤ c && c ≤ 'f')

/-- The regex match `^[\-\+U ]?([0-9a-f]{40})\s+([^\s]+)` of line 55 applied
to an (already stripped, non-empty) line: an optional status character, then
exactly 40 lower-case hex digits, at least one whitespace character, and a
non-empty run of non-whitespace forming the path.  The two capture groups are
returned; trailing text is ignored, as `re.match` only anchors the start. -/
def matchStatusLine (line : String) : Option (String × String) :=
  let cs0 := line.toList
  let cs :=
    match cs0 with
    | c :: t => if c = '-' ∨ c = '+' ∨ c = 'U' ∨ c = ' ' then t else cs0
    | [] => cs0
  let sha := cs.take 40
  let rest := cs.drop 40
  if sha.length == 40 && sha.all isHexLower then
    let ws := rest.takeWhile (fun c => c.isWhitespace)
    let afterWs := rest.dropWhile (fun c => c.isWhitespace)
    let path := afterWs.takeWhile (fun c => !c.isWhitespace)
    if !ws.isEmpty && !path.isEmpty then some (String.mk sha, String.mk path) else none
  else none

/-- `parse_submodule_status` (lines 46-61) applied to the stdout lines of
`git submodule status --recursive`: skip blank lines, keep regex matches,
build the path → sha dict. -/
def parse_submodule_status (outLines : List String) : List (String × String) :=
  outLines.foldl
    (fun st raw =>
      let line := pyStrip raw
      if line == "" then st
      else
        match matchStatusLine line with
        | none => st
        | some shaPath => dictInsert st shaPath.2 shaPath.1)
    []

/-- One `configparser` section of `.gitmodules`: its name (e.g.
`submodule "usearch"`) and its option/value pairs. -/
structure IniSection where
  name : String
  entries : List (String × String)
deriving DecidableEq

/-- `parser.get(section, key, fallback='').strip()` (lines 77-78). -/
def sectionGet (sec : IniSection) (key : String) : String :=
  pyStrip (((sec.entries.find? (fun e => e.1 == key)).map (fun e => e.2)).getD "")

/-- The manifest loop of lines 73-83: walk the sections in file order,
skipping those not named `submodule ...`; fail on the first section missing a
non-empty `path` or `url`; otherwise collect the declared paths. -/
def collectPaths : List IniSection → Except String (List String)
  | [] => .ok []
  | sec :: rest =>
    if !strStartsWith sec.name "submodule " then collectPaths rest
    else
      let path := sectionGet sec "path"
      let url := sectionGet sec "url"
      if path == "" then .error (sec.name ++ " missing path")
      else if url == "" then .error (sec.name ++ " missing url")
      else (collectPaths rest).map (fun ps => path :: ps)

/-- A single quote character as a string (used by the Python `repr` of a
string in an f-string formatted list). -/
def squote : String := String.mk [Char.ofNat 39]

/-- Comma-separated quoted items, auxiliary to `pyListRepr`. -/
def pyListReprAux : List String → String
  | [] => ""
  | [x] => squote ++ x ++ squote
  | x :: y :: t => squote ++ x ++ squote ++ ", " ++ pyListReprAux (y :: t)

/-- Python's `f'{xs}'` for a list of plain strings (no escapes needed):
`['a', 'b']`. -/
def pyListRepr (l : List String) : String :=
  "[" ++ pyListReprAux l ++ "]"

/-- A printed diagnostic: `fail` (stderr, fatal), `warn`, or the final plain
success line. -/
inductive Event where
  | warn (msg : String)
  | error (msg : String)
  | info (msg : String)
deriving DecidableEq

/-- The outcome of a run: the printed diagnostics in order, and the process
exit code (`sys.exit(1)` inside `fail`, 0 on falling off the end). -/
structure RunResult where
  events : List Event
  exitCode : Nat
deriving DecidableEq

/-- Everything the script reads from its environment: existence of the two
files, the parsed `.gitmodules` sections, the lock file's lines, and the
stdout lines of the `git submodule status --recursive` query. -/
structure VerifierInput where
  gitmodulesExists : Bool
  lockExists : Bool
  sections : List IniSection
  lockLines : List String
  statusLines : List String

/-- The error message of line 112. -/
def mismatchMsg (path pinned observed : String) : String :=
  "commit mismatch for " ++ path ++ ": expected " ++ pinned ++ ", got " ++ observed

/-- The per-required-path loop of lines 106-112: a path absent from the
status dict gets a warning and is skipped; otherwise its pin (defaulted to
the sentinel) is compared with the observed sha, a mismatch of a non-sentinel
pin being fatal.  Returns the events emitted and whether `fail` fired (which
stops the whole process, hence the recursion stops there too). -/
def checkRequired (pinned status : List (String × String)) : List String → List Event × Bool
  | [] => ([], false)
  | p :: rest =>
    match dictLookup status p with
    | none =>
      let r := checkRequired pinned status rest
      (Event.warn (p ++ " is declared but not initialized") :: r.1, r.2)
    | some obs =>
      let pin := (dictLookup pinned p).getD SENTINEL
      if pin != SENTINEL && pin != obs then
        ([Event.error (mismatchMsg p pin obs)], true)
      else checkRequired pinned status rest

/-- The module-level script body (lines 64-114) as a pure function. -/
def verify (inp : VerifierInput) : RunResult :=
  if !inp.gitmodulesExists then ⟨[.error ".gitmodules file is missing"], 1⟩
  else if !inp.lockExists then ⟨[.error "cpp/submodules.lock is missing"], 1⟩
  else
    match collectPaths inp.sections with
    | .error e => ⟨[.error e], 1⟩
    | .ok paths =>
      let missing := REQUIRED_PATHS.filter (fun p => !paths.contains p)
      if !missing.isEmpty then
        ⟨[.error ("missing required submodule paths: " ++ pyListRepr (pySorted missing))], 1⟩
      else
        let lock_text := String.intercalate "\n" inp.lockLines
        match sortedRequired.find? (fun p => !containsSub lock_text.toList p.toList) with
        | some p => ⟨[.error ("lock file does not mention " ++ p)], 1⟩
        | none =>
          let pinned_by_path := parse_lock_file inp.lockLines
          match sortedRequired.find? (fun p => (dictLookup pinned_by_path p).isNone) with
          | some p => ⟨[.error ("lock file missing pinned_commit for " ++ p)], 1⟩
          | none =>
            let warns1 : List Event :=
              if pinned_by_path.any (fun kv => kv.2 == SENTINEL) then
                [Event.warn "pinned commits are placeholders and must be updated before release"]
              else []
            let status := parse_submodule_status inp.statusLines
            if status.isEmpty then
              ⟨warns1 ++ [Event.warn "no initialized submodule gitlinks found in index yet",
                Event.info "[verify_submodules] OK: submodule policy files are consistent"], 0⟩
            else
              let r := checkRequired pinned_by_path status sortedRequired
              if r.2 then ⟨warns1 ++ r.1, 1⟩
              else ⟨warns1 ++ r.1 ++
                [Event.info "[verify_submodules] OK: submodule policy files are consistent"], 0⟩

/-- A well-formed `.gitmodules` declaring all four required paths. -/
def exSections : List IniSection :=
  [⟨"submodule \"usearch\"",
    [("path", "cpp/third_party/usearch"), ("url", "https://example.com/usearch.git")]⟩,
   ⟨"submodule \"sqlite\"",
    [("path", "cpp/third_party/sqlite"), ("url", "https://example.com/sqlite.git")]⟩,
   ⟨"submodule \"googletest\"",
    [("path", "cpp/third_party/googletest"), ("url", "https://example.com/googletest.git")]⟩,
   ⟨"submodule \"libtorch-dist\"",
    [("path", "cpp/third_party/libtorch-dist"), ("url", "https://example.com/libtorch.git")]⟩]

/-- Lock-file lines pinning every required path to the sentinel. -/
def exLockAllSentinel : List String :=
  ["path: cpp/third_party/usearch", "pinned_commit: \"<PIN_REQUIRED>\"",
   "path: cpp/third_party/sqlite", "pinned_commit: \"<PIN_REQUIRED>\"",
   "path: cpp/third_party/googletest", "pinned_commit: \"<PIN_REQUIRED>\"",
   "path: cpp/third_party/libtorch-dist", "pinned_commit: \"<PIN_REQUIRED>\""]

/-- Statics all pass, all pins placeholders, no submodule initialized yet. -/
def exBase : VerifierInput :=
  ⟨true, true, exSections, exLockAllSentinel, []⟩

/-- A manifest declaring only two of the four required paths. -/
def exMissing : VerifierInput :=
  ⟨true, true,
    [⟨"submodule \"usearch\"",
      [("path", "cpp/third_party/usearch"), ("url", "https://example.com/usearch.git")]⟩,
     ⟨"submodule \"sqlite\"",
      [("path", "cpp/third_party/sqlite"), ("url", "https://example.com/sqlite.git")]⟩],
    exLockAllSentinel, []⟩

/-- Lock-file lines pinning googletest to a real hash and the rest to the
sentinel. -/
def exLockMismatch : List String :=
  ["path: cpp/third_party/usearch", "pinned_commit: \"<PIN_REQUIRED>\"",
   "path: cpp/third_party/sqlite", "pinned_commit: \"<PIN_REQUIRED>\"",
   "path: cpp/third_party/googletest", "pinned_commit: \"deadbeef\"",
   "path: cpp/third_party/libtorch-dist", "pinned_commit: \"<PIN_REQUIRED>\""]

/-- A checkout whose googletest gitlink differs from the lock-file pin. -/
def exMismatch : VerifierInput :=
  ⟨true, true, exSections, exLockMismatch,
    ["cafef00dcafef00dcafef00dcafef00dcafef00d cpp/third_party/googletest (heads/main)"]⟩

/-- A configuration whose lock file carries an extra, non-required entry
`thirdparty/extra` pinned to `deadbeef`, while the observed state has that
path at a different hash; all required paths are pinned to the sentinel. -/
def exNonRequired : VerifierInput :=
  ⟨true, true, exSections,
    exLockAllSentinel ++ ["path: thirdparty/extra", "pinned_commit: \"deadbeef\""],
    ["cafef00dcafef00dcafef00dcafef00dcafef00d thirdparty/extra (heads/main)"]⟩

/-- A lock file that mentions every required path but gives googletest no
`pinned_commit` line. -/
def exNoPin : VerifierInput :=
  ⟨true, true, exSections,
    ["path: cpp/third_party/usearch", "pinned_commit: \"<PIN_REQUIRED>\"",
     "path: cpp/third_party/sqlite", "pinned_commit: \"<PIN_REQUIRED>\"",
     "path: cpp/third_party/googletest",
     "path: cpp/third_party/libtorch-dist", "pinned_commit: \"<PIN_REQUIRED>\""],
    []⟩

/-- An event printed by `fail`, i.e. a fatal diagnostic. -/
def isErrorEvent : Event → Bool
  | .error _ => true
  | _ => false

/-- A fatal diagnostic produced by the pin-versus-observed comparison of
line 112 (they all start with `commit mismatch for `). -/
def isMismatchEvent : Event → Bool
  | .error m => strStartsWith m "commit mismatch for "
  | _ => false

/-- The per-path condition under which the loop of lines 106-112 calls
`fail`. -/
def mismatchAt (pinned status : List (String × String)) (p : String) : Bool :=
  match dictLookup status p with
  | none => false
  | some obs =>
    ((dictLookup pinned p).getD SENTINEL != SENTINEL) &&
      ((dictLookup pinned p).getD SENTINEL != obs)

example : parse_lock_file ["path: a", "pinned_commit: \"deadbeef\""] = [("a", "deadbeef")] := by
  decide

example : sortedRequired =
    ["cpp/third_party/googletest", "cpp/third_party/libtorch-dist",
     "cpp/third_party/sqlite", "cpp/third_party/usearch"] := by decide

example :
    verify exBase =
      ⟨[Event.warn "pinned commits are placeholders and must be updated before release",
        Event.warn "no initialized submodule gitlinks found in index yet",
        Event.info "[verify_submodules] OK: submodule policy files are consistent"], 0⟩ := by
  decide

lemma toList_append (s t : String) : (s ++ t).toList = s.toList ++ t.toList :=
  String.data_append s t

lemma mem_insertLe {a x : String} {l : List String} :
    a ∈ insertLe x l ↔ a = x ∨ a ∈ l := by
  induction l with
  | nil => simp [insertLe]
  | cons y t ih =>
    by_cases h : strLe x y = true
    · simp [insertLe, h]
    · simp only [insertLe, h]
      simp only [Bool.false_eq_true, if_false, List.mem_cons, ih]
      tauto

lemma mem_pySorted {a : String} {l : List String} : a ∈ pySorted l ↔ a ∈ l := by
  induction l with
  | nil => simp [pySorted]
  | cons x t ih => simp [pySorted, mem_insertLe, ih]

lemma containsSub_of_isInfix {hay needle : List Char} (h : needle <:+: hay) :
    containsSub hay needle = true := by
  induction hay with
  | nil =>
    have : needle = [] := List.eq_nil_of_infix_nil h
    subst this
    simp [containsSub]
  | cons c rest ih =>
    rw [List.infix_cons_iff] at h
    rcases h with h | h
    · unfold containsSub
      rw [if_pos (List.isPrefixOf_iff_prefix.2 h)]
    · unfold containsSub
      split
      · rfl
      · exact ih h

lemma mem_sortedRequired {p : String} : p ∈ sortedRequired ↔ p ∈ REQUIRED_PATHS := by
  unfold sortedRequired
  exact mem_pySorted

lemma getLast?_cons_of_ne_nil {α : Type} (a : α) {l : List α} (h : l ≠ []) :
    (a :: l).getLast? = l.getLast? := by
  cases l with
  | nil => exact absurd rfl h
  | cons b t => simp [List.getLast?]

lemma checkRequired_cons_none {status : List (String × String)} {p : String}
    (hs : dictLookup status p = none) (pinned : List (String × String)) (rest : List String) :
    checkRequired pinned status (p :: rest) =
      (Event.warn (p ++ " is declared but not initialized") ::
          (checkRequired pinned status rest).1,
        (checkRequired pinned status rest).2) := by
  conv_lhs => unfold checkRequired
  rw [hs]

lemma checkRequired_cons_some {status : List (String × String)} {p obs : String}
    (hs : dictLookup status p = some obs) (pinned : List (String × String)) (rest : List String) :
    checkRequired pinned status (p :: rest) =
      (if ((dictLookup pinned p).getD SENTINEL != SENTINEL &&
            (dictLookup pinned p).getD SENTINEL != obs) = true then
        ([Event.error (mismatchMsg p ((dictLookup pinned p).getD SENTINEL) obs)], true)
      else checkRequired pinned status rest) := by
  conv_lhs => unfold checkRequired
  rw [hs]

/-- A fatal outcome of the comparison loop ends the event list with the error
(and everything before it is a warning); a non-fatal outcome prints only
warnings. -/
lemma checkRequired_shape (pinned status : List (String × String)) (l : List String) :
    (((checkRequired pinned status l).2 = true →
        ∃ pre m, (checkRequired pinned status l).1 = pre ++ [Event.error m] ∧
          ∀ e ∈ pre, isErrorEvent e = false) ∧
      ((checkRequired pinned status l).2 = false →
        ∀ e ∈ (checkRequired pinned status l).1, isErrorEvent e = false)) := by
  induction l with
  | nil => simp [checkRequired]
  | cons p rest ih =>
    cases hs : dictLookup status p with
    | none =>
      rw [checkRequired_cons_none hs]
      constructor
      · intro hf
        rcases ih.1 hf with ⟨pre, m, hpre, hall⟩
        refine ⟨Event.warn (p ++ " is declared but not initialized") :: pre, m, ?_, ?_⟩
        · simp [hpre]
        · intro e he
          rcases List.mem_cons.1 he with rfl | he
          · rfl
          · exact hall e he
      · intro hf e he
        rcases List.mem_cons.1 he with rfl | he
        · rfl
        · exact ih.2 hf e he
    | some obs =>
      rw [checkRequired_cons_some hs]
      split
      · constructor
        · intro _
          exact ⟨[], _, rfl, by simp⟩
        · intro h
          simp at h
      · exact ih

/-- If no required path in `l` triggers the mismatch condition, the loop does
not call `fail`. -/
lemma checkRequired_no_mismatch (pinned status : List (String × String)) (l : List String)
    (h : ∀ p ∈ l, mismatchAt pinned status p = false) :
    (checkRequired pinned status l).2 = false := by
  induction l with
  | nil => simp [checkRequired]
  | cons p rest ih =>
    have hp := h p (List.mem_cons_self p rest)
    cases hs : dictLookup status p with
    | none =>
      rw [checkRequired_cons_none hs]
      exact ih (fun q hq => h q (List.mem_cons_of_mem p hq))
    | some obs =>
      rw [checkRequired_cons_some hs]
      unfold mismatchAt at hp
      rw [hs] at hp
      simp only [] at hp
      rw [if_neg (by rw [hp]; simp)]
      exact ih (fun q hq => h q (List.mem_cons_of_mem p hq))

lemma checkRequired_fatal_of_mismatch (pinned status : List (String × String)) (l : List String)
    (h : ∃ p ∈ l, mismatchAt pinned status p = true) :
    (checkRequired pinned status l).2 = true ∧
    ∃ q obs, q ∈ l ∧ dictLookup status q = some obs ∧
      (dictLookup pinned q).getD SENTINEL ≠ SENTINEL ∧
      (dictLookup pinned q).getD SENTINEL ≠ obs ∧
      (checkRequired pinned status l).1.getLast? =
        some (Event.error (mismatchMsg q ((dictLookup pinned q).getD SENTINEL) obs)) := by
  induction l with
  | nil => simp at h
  | cons p rest ih =>
    cases hs : dictLookup status p with
    | none =>
      have h' : ∃ q ∈ rest, mismatchAt pinned status q = true := by
        rcases h with ⟨p', hp', hm⟩
        rcases List.mem_cons.1 hp' with rfl | hmem
        · unfold mismatchAt at hm
          rw [hs] at hm
          simp at hm
        · exact ⟨p', hmem, hm⟩
      rcases ih h' with ⟨hf, q, obs, hq, hlq, hns, hno, hlast⟩
      rw [checkRequired_cons_none hs]
      refine ⟨hf, q, obs, List.mem_cons_of_mem p hq, hlq, hns, hno, ?_⟩
      have hne : (checkRequired pinned status rest).1 ≠ [] := by
        intro hnil
        rw [hnil] at hlast
        simp [List.getLast?] at hlast
      rw [getLast?_cons_of_ne_nil _ hne]
      exact hlast
    | some obs =>
      rw [checkRequired_cons_some hs]
      by_cases hc : (((dictLookup pinned p).getD SENTINEL != SENTINEL) &&
          ((dictLookup pinned p).getD SENTINEL != obs)) = true
      · rw [if_pos hc]
        simp only [Bool.and_eq_true, bne_iff_ne] at hc
        exact ⟨rfl, p, obs, List.mem_cons_self p rest, hs, hc.1, hc.2, by simp [List.getLast?]⟩
      · rw [if_neg hc]
        have h' : ∃ q ∈ rest, mismatchAt pinned status q = true := by
          rcases h with ⟨p', hp', hm⟩
          rcases List.mem_cons.1 hp' with rfl | hmem
          · exfalso
            unfold mismatchAt at hm
            rw [hs] at hm
            simp only [] at hm
            exact hc hm
          · exact ⟨p', hmem, hm⟩
        rcases ih h' with ⟨hf, q, obs', hq, hlq, hns, hno, hlast⟩
        exact ⟨hf, q, obs', List.mem_cons_of_mem p hq, hlq, hns, hno, hlast⟩

/-- Under all the static checks (file existence, manifest contents, missing
required paths, lock-file mentions, pin presence) passing, `verify` reduces
to the placeholder warning plus the observed-state stage. -/
lemma verify_statics (inp : VerifierInput) (ps : List String)
    (h1 : inp.gitmodulesExists = true) (h2 : inp.lockExists = true)
    (h3 : collectPaths inp.sections = .ok ps)
    (h4 : (REQUIRED_PATHS.filter (fun p => !ps.contains p)).isEmpty = true)
    (h5 : sortedRequired.find?
        (fun p => !containsSub (String.intercalate "\n" inp.lockLines).toList p.toList) = none)
    (h6 : sortedRequired.find?
        (fun p => (dictLookup (parse_lock_file inp.lockLines) p).isNone) = none) :
    verify inp =
      ⟨(if (parse_lock_file inp.lockLines).any (fun kv => kv.2 == SENTINEL) then
          [Event.warn "pinned commits are placeholders and must be updated before release"]
        else []) ++
        (if (parse_submodule_status inp.statusLines).isEmpty then
          [Event.warn "no initialized submodule gitlinks found in index yet",
            Event.info "[verify_submodules] OK: submodule policy files are consistent"]
        else if (checkRequired (parse_lock_file inp.lockLines)
            (parse_submodule_status inp.statusLines) sortedRequired).2 then
          (checkRequired (parse_lock_file inp.lockLines)
            (parse_submodule_status inp.statusLines) sortedRequired).1
        else
          (checkRequired (parse_lock_file inp.lockLines)
              (parse_submodule_status inp.statusLines) sortedRequired).1 ++
            [Event.info "[verify_submodules] OK: submodule policy files are consistent"]),
      (if (parse_submodule_status inp.statusLines).isEmpty then (0 : Nat)
        else if (checkRequired (parse_lock_file inp.lockLines)
            (parse_submodule_status inp.statusLines) sortedRequired).2 then 1
          else 0)⟩ := by
  unfold verify
  rw [h1, h2, h3]
  simp only [Bool.not_true, Bool.false_eq_true, if_false, h4, h5, h6]
  split
  · rfl
  · split
    · rfl
    · simp [List.append_assoc]

/-- The middle part of a three-way concatenation occurs as a substring. -/
lemma containsSub_middle (a b c : String) :
    containsSub (a ++ b ++ c).toList b.toList = true := by
  apply containsSub_of_isInfix
  rw [toList_append, toList_append]
  exact List.infix_append _ _ _

/-- The right part of a concatenation occurs as a substring. -/
lemma containsSub_right (a b : String) :
    containsSub (a ++ b).toList b.toList = true := by
  apply containsSub_of_isInfix
  rw [toList_append]
  exact (List.suffix_append _ _).isInfix

lemma head?_of_isPrefix {p l : List Char} (h : p <+: l) (hp : p ≠ []) : l.head? = p.head? := by
  rcases h with ⟨t, rfl⟩
  cases p with
  | nil => exact absurd rfl hp
  | cons c cs => rfl

lemma strStartsWith_head {s : String} {c : Char} {pre : String}
    (h : strStartsWith s pre = true) (hpre : pre.toList.head? = some c) :
    s.toList.head? = some c := by
  unfold strStartsWith at h
  have hp := List.isPrefixOf_iff_prefix.1 h
  have hne : pre.toList ≠ [] := by
    intro hnil
    rw [hnil] at hpre
    simp at hpre
  rw [head?_of_isPrefix hp hne, hpre]

/-- `startswith` is decided by the first character: if the haystack's first
character differs from the prefix's, it fails (also with anything appended
to the haystack). -/
lemma strStartsWith_append_false {s t pre : String} {c c' : Char}
    (hs : s.toList.head? = some c) (hp : pre.toList.head? = some c') (hne : c ≠ c') :
    strStartsWith (s ++ t) pre = false := by
  rw [Bool.eq_false_iff]
  intro h
  unfold strStartsWith at h
  have hpref := List.isPrefixOf_iff_prefix.1 h
  have hnep : pre.toList ≠ [] := by
    intro hnil
    rw [hnil] at hp
    simp at hp
  have h1 : (s ++ t).toList.head? = some c' := by
    rw [head?_of_isPrefix hpref hnep, hp]
  have hsne : s.toList ≠ [] := by
    intro hnil
    rw [hnil] at hs
    simp at hs
  rw [toList_append, List.head?_append_of_ne_nil _ hsne, hs] at h1
  exact hne (Option.some.inj h1)

/-- Any error produced by the manifest loop is of the form
`<section name> ++ " missing path"` / `" missing url"` for a section whose
name starts with `submodule `. -/
lemma collectPaths_error_shape {secs : List IniSection} {e : String}
    (h : collectPaths secs = .error e) :
    ∃ name tail, strStartsWith name "submodule " = true ∧ e = name ++ tail := by
  induction secs with
  | nil => simp [collectPaths] at h
  | cons sec rest ih =>
    unfold collectPaths at h
    by_cases hname : strStartsWith sec.name "submodule " = true
    · rw [if_neg (by simp [hname])] at h
      by_cases hpath : sectionGet sec "path" == "" 
      · rw [if_pos hpath] at h
        exact ⟨sec.name, " missing path", hname, (Except.error.inj h).symm⟩
      · rw [if_neg hpath] at h
        by_cases hurl : sectionGet sec "url" == ""
        · rw [if_pos hurl] at h
          exact ⟨sec.name, " missing url", hname, (Except.error.inj h).symm⟩
        · rw [if_neg hurl] at h
          cases hrec : collectPaths rest with
          | error e' =>
            rw [hrec] at h
            simp only [Except.map] at h
            have he : e' = e := Except.error.inj h
            subst he
            exact ih hrec
          | ok ps =>
            rw [hrec] at h
            simp [Except.map] at h
    · rw [if_pos (by simp [hname])] at h
      exact ih h

lemma isInfix_append_left {i l : List Char} (x : List Char) (h : i <:+: l) : i <:+: x ++ l := by
  rcases h with ⟨s, t, rfl⟩
  exact ⟨x ++ s, t, by simp [List.append_assoc]⟩

lemma isInfix_append_right {i l : List Char} (x : List Char) (h : i <:+: l) : i <:+: l ++ x := by
  rcases h with ⟨s, t, rfl⟩
  exact ⟨s, t ++ x, by simp [List.append_assoc]⟩

lemma mem_pyListReprAux {q : String} {l : List String} (h : q ∈ l) :
    q.toList <:+: (pyListReprAux l).toList := by
  induction l with
  | nil => simp at h
  | cons x t ih =>
    cases t with
    | nil =>
      have hq : q = x := by simpa using h
      subst hq
      show q.toList <:+: (squote ++ q ++ squote).toList
      rw [toList_append, toList_append]
      exact List.infix_append _ _ _
    | cons y t2 =>
      rcases List.mem_cons.1 h with rfl | hm
      · show q.toList <:+: (squote ++ q ++ squote ++ ", " ++ pyListReprAux (y :: t2)).toList
        rw [toList_append, toList_append, toList_append, toList_append]
        apply isInfix_append_right
        apply isInfix_append_right
        exact List.infix_append _ _ _
      · show q.toList <:+: (squote ++ x ++ squote ++ ", " ++ pyListReprAux (y :: t2)).toList
        rw [toList_append]
        exact isInfix_append_left _ (ih hm)

/-- Every element of `l` occurs verbatim in the rendered Python list. -/
lemma containsSub_pyListRepr {q : String} {l : List String} (h : q ∈ l) :
    containsSub (pyListRepr l).toList q.toList = true := by
  apply containsSub_of_isInfix
  unfold pyListRepr
  rw [toList_append, toList_append]
  apply isInfix_append_right
  exact isInfix_append_left _ (mem_pyListReprAux h)

/-- The path, the pinned value and the observed value all occur verbatim in
the mismatch error message. -/
lemma mismatchMsg_verbatim (q pin obs : String) :
    containsSub (mismatchMsg q pin obs).toList q.toList = true ∧
    containsSub (mismatchMsg q pin obs).toList pin.toList = true ∧
    containsSub (mismatchMsg q pin obs).toList obs.toList = true := by
  unfold mismatchMsg
  refine ⟨?_, ?_, ?_⟩
  · apply containsSub_of_isInfix
    rw [toList_append, toList_append, toList_append, toList_append]
    apply isInfix_append_right
    apply isInfix_append_right
    apply isInfix_append_right
    exact List.infix_append _ _ _
  · apply containsSub_of_isInfix
    rw [toList_append, toList_append, toList_append, toList_append]
    apply isInfix_append_right
    exact List.infix_append _ _ _
  · apply containsSub_of_isInfix
    rw [toList_append]
    exact (List.suffix_append _ _).isInfix

/-- C7: for a required path present in the observed status whose (non-sentinel)
pin equals the observed hash byte-for-byte, the per-path check of lines
106-112 passes silently: it emits no diagnostic, does not fail, and the loop
proceeds with the remaining paths exactly as if the path were not there. -/
theorem matching_pin_silent (pinned status : List (String × String)) (p pin obs : String)
    (rest : List String)
    (hobs : dictLookup status p = some obs)
    (hpin : dictLookup pinned p = some pin)
    (hsent : pin ≠ SENTINEL) (heq : pin = obs) :
    checkRequired pinned status (p :: rest) = checkRequired pinned status rest ∧
    checkRequired pinned status [p] = ([], false) := by
  have key : ∀ r : List String,
      checkRequired pinned status (p :: r) = checkRequired pinned status r := by
    intro r
    rw [checkRequired_cons_some hobs, hpin]
    rw [if_neg (by simp [heq])]
  refine ⟨key rest, ?_⟩
  rw [key []]
  simp [checkRequired]

/-- C7 witness. -/
theorem matching_pin_silent_witness :
    checkRequired [("a", "deadbeef")] [("a", "deadbeef")] ["a", "b"] =
      checkRequired [("a", "deadbeef")] [("a", "deadbeef")] ["b"] :=
  (matching_pin_silent [("a", "deadbeef")] [("a", "deadbeef")] "a" "deadbeef" "deadbeef"
    ["b"] (by decide) (by decide) (by decide) rfl).1

/-- C4: lock-file parsing is the line-oriented state machine of lines 33-42:
a (stripped) line starting with the `path:` marker sets the current-path
context to the stripped remainder after the marker, a (stripped) line
starting with the `pinned_commit:` marker stores its stripped, quote-stripped
value under the current context, every other line changes nothing, and the
two lines `path: a` / `pinned_commit: "deadbeef"` produce the mapping
`a -> deadbeef`. -/
theorem parse_lock_file_state_machine (raw : String) (rest : List String)
    (cur : Option String) (acc : List (String × String)) :
    (strStartsWith (pyStrip raw) "path:" = true →
        parseLockAux (raw :: rest) cur acc =
          parseLockAux rest (some (pyStrip (strDrop (pyStrip raw) 5))) acc) ∧
    (strStartsWith (pyStrip raw) "path:" = false →
        strStartsWith (pyStrip raw) "pinned_commit:" = true →
        ∀ p, cur = some p →
          parseLockAux (raw :: rest) cur acc =
            parseLockAux rest cur
              (dictInsert acc p (stripQuotes (pyStrip (strDrop (pyStrip raw) 14))))) ∧
    (strStartsWith (pyStrip raw) "path:" = false →
        strStartsWith (pyStrip raw) "pinned_commit:" = false →
        parseLockAux (raw :: rest) cur acc = parseLockAux rest cur acc) ∧
    parse_lock_file ["path: a", "pinned_commit: \"deadbeef\""] = [("a", "deadbeef")] := by
  refine ⟨?_, ?_, ?_, by decide⟩
  · intro h
    simp only [parseLockAux]
    rw [h]
    simp
  · intro h1 h2 p hcur
    subst hcur
    simp only [parseLockAux]
    rw [h1, h2]
    simp
  · intro h1 h2
    simp only [parseLockAux]
    rw [h1, h2]
    simp

/-- C4 witness. -/
theorem parse_lock_file_state_machine_witness :
    parseLockAux ["path: a"] none [] =
      parseLockAux [] (some (pyStrip (strDrop (pyStrip "path: a") 5))) [] :=
  (parse_lock_file_state_machine "path: a" [] none []).1 (by decide)

lemma find?_map_replace {k v : String} (t : List (String × String))
    (h : t.any (fun kv => kv.1 == k) = true) :
    (t.map (fun kv => if kv.1 == k then (k, v) else kv)).find?
      (fun kv => kv.1 == k) = some (k, v) := by
  induction t with
  | nil => simp at h
  | cons kv t ih =>
    by_cases hk : (kv.1 == k) = true
    · simp only [List.map_cons, if_pos hk]
      rw [List.find?_cons_of_pos _ (by simp)]
    · simp only [List.map_cons, if_neg hk]
      rw [List.find?_cons_of_neg _ (by simp [hk])]
      apply ih
      rcases List.any_eq_true.1 h with ⟨x, hx, hpx⟩
      rcases List.mem_cons.1 hx with rfl | hx2
      · exact absurd hpx hk
      · exact List.any_eq_true.2 ⟨x, hx2, hpx⟩

/-- Assigning `d[k] = v` makes a later lookup of `k` return `v`: the last
write wins. -/
lemma dictLookup_dictInsert (d : List (String × String)) (k v : String) :
    dictLookup (dictInsert d k v) k = some v := by
  unfold dictInsert dictLookup
  by_cases h : d.any (fun kv => kv.1 == k) = true
  · rw [if_pos h, find?_map_replace d h]
    rfl
  · rw [if_neg h, List.find?_append]
    have hnone : d.find? (fun kv => kv.1 == k) = none := by
      apply List.find?_eq_none.2
      intro x hx hpx
      exact h (List.any_eq_true.2 ⟨x, hx, hpx⟩)
    rw [hnone]
    simp

/-- C10: a `pinned_commit:` line seen before any `path:` line is discarded
(parsing the remaining lines from the initial, context-free state), and when
several pin lines share a context, or a path recurs, the most recent pin
value wins in the final mapping. -/
theorem parse_lock_file_orphan_pin_and_last_wins (l : String) (rest : List String)
    (h1 : strStartsWith (pyStrip l) "pinned_commit:" = true)
    (h2 : strStartsWith (pyStrip l) "path:" = false) :
    parse_lock_file (l :: rest) = parse_lock_file rest ∧
    (∀ d k v, dictLookup (dictInsert d k v) k = some v) ∧
    dictLookup (parse_lock_file
        ["path: a", "pinned_commit: \"x\"", "pinned_commit: \"y\""]) "a" = some "y" ∧
    parse_lock_file
        ["path: a", "pinned_commit: \"x\"", "path: b", "pinned_commit: \"w\"",
         "path: a", "pinned_commit: \"z\""] = [("a", "z"), ("b", "w")] := by
  refine ⟨?_, fun d k v => dictLookup_dictInsert d k v, by decide, by decide⟩
  unfold parse_lock_file
  simp only [parseLockAux]
  rw [h1, h2]
  simp

/-- C10 witness. -/
theorem parse_lock_file_orphan_pin_and_last_wins_witness :
    parse_lock_file ["pinned_commit: \"deadbeef\"", "path: a"] =
      parse_lock_file ["path: a"] :=
  (parse_lock_file_orphan_pin_and_last_wins "pinned_commit: \"deadbeef\"" ["path: a"]
    (by decide) (by decide)).1

/-- C6: when the status query returns no entries and all the static
manifest/lock checks pass, the verifier warns about the uninitialized state,
performs no per-path pin-versus-observed comparison (its only other output
being the optional placeholder warning and the final success line), and
exits 0. -/
theorem empty_status_warn_exit_zero (inp : VerifierInput) (ps : List String)
    (h1 : inp.gitmodulesExists = true) (h2 : inp.lockExists = true)
    (h3 : collectPaths inp.sections = .ok ps)
    (h4 : (REQUIRED_PATHS.filter (fun p => !ps.contains p)).isEmpty = true)
    (h5 : sortedRequired.find?
        (fun p => !containsSub (String.intercalate "\n" inp.lockLines).toList p.toList) = none)
    (h6 : sortedRequired.find?
        (fun p => (dictLookup (parse_lock_file inp.lockLines) p).isNone) = none)
    (hstatus : parse_submodule_status inp.statusLines = []) :
    (verify inp).exitCode = 0 ∧
    (verify inp).events =
      (if (parse_lock_file inp.lockLines).any (fun kv => kv.2 == SENTINEL) then
          [Event.warn "pinned commits are placeholders and must be updated before release"]
        else []) ++
        [Event.warn "no initialized submodule gitlinks found in index yet",
          Event.info "[verify_submodules] OK: submodule policy files are consistent"] ∧
    Event.warn "no initialized submodule gitlinks found in index yet" ∈ (verify inp).events ∧
    ∀ e ∈ (verify inp).events, isErrorEvent e = false := by
  rw [verify_statics inp ps h1 h2 h3 h4 h5 h6, hstatus]
  simp only [List.isEmpty_nil, if_true]
  refine ⟨by trivial, by trivial, ?_, ?_⟩
  · apply List.mem_append_right
    exact List.mem_cons_self _ _
  · intro e he
    rcases List.mem_append.1 he with hl | hr
    · split at hl
      · rcases List.mem_singleton.1 hl with rfl
        rfl
      · simp at hl
    · rcases List.mem_cons.1 hr with rfl | hr2
      · rfl
      · rcases List.mem_singleton.1 hr2 with rfl
        rfl

/-- C6 witness. -/
theorem empty_status_warn_exit_zero_witness :
    (verify exBase).exitCode = 0 ∧
    Event.warn "no initialized submodule gitlinks found in index yet" ∈ (verify exBase).events :=
  have h := empty_status_warn_exit_zero exBase
    ["cpp/third_party/usearch", "cpp/third_party/sqlite", "cpp/third_party/googletest",
      "cpp/third_party/libtorch-dist"]
    (by decide) (by decide) rfl (by decide) (by decide) (by decide) (by decide)
  ⟨h.1, h.2.2.1⟩

/-- C3: when the manifest parses but its declared paths omit one or more
required paths, the verifier emits exactly one error event and exits 1, and
that single message names (contains verbatim) every missing required path,
since it renders the sorted list of all of them. -/
theorem missing_required_paths_fatal (inp : VerifierInput) (ps : List String)
    (h1 : inp.gitmodulesExists = true) (h2 : inp.lockExists = true)
    (h3 : collectPaths inp.sections = .ok ps)
    (h4 : (REQUIRED_PATHS.filter (fun p => !ps.contains p)).isEmpty = false) :
    (verify inp).exitCode = 1 ∧
    (verify inp).events =
      [Event.error ("missing required submodule paths: " ++
        pyListRepr (pySorted (REQUIRED_PATHS.filter (fun p => !ps.contains p))))] ∧
    ∀ q ∈ REQUIRED_PATHS, ps.contains q = false →
      q ∈ pySorted (REQUIRED_PATHS.filter (fun p => !ps.contains p)) ∧
      containsSub ("missing required submodule paths: " ++
          pyListRepr (pySorted (REQUIRED_PATHS.filter (fun p => !ps.contains p)))).toList
        q.toList = true := by
  have hv : verify inp = ⟨[Event.error ("missing required submodule paths: " ++
      pyListRepr (pySorted (REQUIRED_PATHS.filter (fun p => !ps.contains p))))], 1⟩ := by
    unfold verify
    rw [h1, h2, h3]
    simp only [Bool.not_true, Bool.false_eq_true, if_false, h4, Bool.not_false,
      eq_self_iff_true, if_true]
  rw [hv]
  refine ⟨rfl, rfl, ?_⟩
  intro q hq hqc
  have hmem : q ∈ pySorted (REQUIRED_PATHS.filter (fun p => !ps.contains p)) :=
    mem_pySorted.2 (List.mem_filter.2 ⟨hq, by rw [hqc]; rfl⟩)
  refine ⟨hmem, ?_⟩
  apply containsSub_of_isInfix
  rw [toList_append]
  apply isInfix_append_left
  unfold pyListRepr
  rw [toList_append, toList_append]
  apply isInfix_append_right
  exact isInfix_append_left _ (mem_pyListReprAux hmem)

/-- C3 witness. -/
theorem missing_required_paths_fatal_witness :
    (verify exMissing).exitCode = 1 :=
  (missing_required_paths_fatal exMissing
    ["cpp/third_party/usearch", "cpp/third_party/sqlite"]
    (by decide) (by decide) rfl (by decide)).1

/-- C5: when every pin in the parsed lock file is the `<PIN_REQUIRED>`
sentinel and all manifest/lock static checks pass, the verifier exits 0 and
prints the placeholder warning; the sentinel never triggers the fatal
mismatch branch. -/
theorem all_sentinel_pins_warn_exit_zero (inp : VerifierInput) (ps : List String)
    (h1 : inp.gitmodulesExists = true) (h2 : inp.lockExists = true)
    (h3 : collectPaths inp.sections = .ok ps)
    (h4 : (REQUIRED_PATHS.filter (fun p => !ps.contains p)).isEmpty = true)
    (h5 : sortedRequired.find?
        (fun p => !containsSub (String.intercalate "\n" inp.lockLines).toList p.toList) = none)
    (h6 : sortedRequired.find?
        (fun p => (dictLookup (parse_lock_file inp.lockLines) p).isNone) = none)
    (hall : ∀ kv ∈ parse_lock_file inp.lockLines, kv.2 = SENTINEL) :
    (verify inp).exitCode = 0 ∧
    Event.warn "pinned commits are placeholders and must be updated before release"
      ∈ (verify inp).events := by
  have hne : parse_lock_file inp.lockLines ≠ [] := by
    have hg : "cpp/third_party/googletest" ∈ sortedRequired := by decide
    have hnn := List.find?_eq_none.1 h6 _ hg
    intro hnil
    rw [hnil] at hnn
    exact hnn rfl
  have hany : (parse_lock_file inp.lockLines).any (fun kv => kv.2 == SENTINEL) = true := by
    cases hpl : parse_lock_file inp.lockLines with
    | nil => exact absurd hpl hne
    | cons kv t =>
      apply List.any_eq_true.2
      refine ⟨kv, List.mem_cons_self kv t, ?_⟩
      have : kv.2 = SENTINEL := hall kv (by rw [hpl]; exact List.mem_cons_self kv t)
      rw [this]
      simp
  have hpins : ∀ p v, dictLookup (parse_lock_file inp.lockLines) p = some v → v = SENTINEL := by
    intro p v hv
    unfold dictLookup at hv
    rcases Option.map_eq_some'.1 hv with ⟨kv, hfind, hv2⟩
    have hmem := List.mem_of_find?_eq_some hfind
    rw [← hv2]
    exact hall kv hmem
  have hnf : (checkRequired (parse_lock_file inp.lockLines)
      (parse_submodule_status inp.statusLines) sortedRequired).2 = false := by
    apply checkRequired_no_mismatch
    intro p _
    unfold mismatchAt
    cases hs : dictLookup (parse_submodule_status inp.statusLines) p with
    | none => rfl
    | some obs =>
      cases hlp : dictLookup (parse_lock_file inp.lockLines) p with
      | none => simp
      | some v =>
        rw [hpins p v hlp]
        simp
  rw [verify_statics inp ps h1 h2 h3 h4 h5 h6]
  constructor
  · by_cases hse : (parse_submodule_status inp.statusLines).isEmpty = true
    · rw [hse]
      rfl
    · rw [Bool.eq_false_iff.2 hse, hnf]
      rfl
  · rw [hany]
    exact List.mem_append_left _ (List.mem_cons_self _ _)

/-- C5 witness. -/
theorem all_sentinel_pins_warn_exit_zero_witness :
    (verify exBase).exitCode = 0 ∧
    Event.warn "pinned commits are placeholders and must be updated before release"
      ∈ (verify exBase).events :=
  all_sentinel_pins_warn_exit_zero exBase
    ["cpp/third_party/usearch", "cpp/third_party/sqlite", "cpp/third_party/googletest",
      "cpp/third_party/libtorch-dist"]
    (by decide) (by decide) rfl (by decide) (by decide) (by decide) (by decide)

/-- C1: when the static checks pass and some required path present in the
observed status has a non-sentinel pin differing from the observed hash, the
verifier exits 1 and its (last) error message is the mismatch report for the
first such path in sorted order, containing that path's expected (pinned) and
observed values verbatim. -/
theorem required_mismatch_fatal (inp : VerifierInput) (ps : List String) (p pin obs : String)
    (h1 : inp.gitmodulesExists = true) (h2 : inp.lockExists = true)
    (h3 : collectPaths inp.sections = .ok ps)
    (h4 : (REQUIRED_PATHS.filter (fun q => !ps.contains q)).isEmpty = true)
    (h5 : sortedRequired.find?
        (fun q => !containsSub (String.intercalate "\n" inp.lockLines).toList q.toList) = none)
    (h6 : sortedRequired.find?
        (fun q => (dictLookup (parse_lock_file inp.lockLines) q).isNone) = none)
    (hp : p ∈ REQUIRED_PATHS)
    (hobs : dictLookup (parse_submodule_status inp.statusLines) p = some obs)
    (hpin : dictLookup (parse_lock_file inp.lockLines) p = some pin)
    (hsent : pin ≠ SENTINEL) (hne : pin ≠ obs) :
    (verify inp).exitCode = 1 ∧
    ∃ q pinq obsq,
      q ∈ REQUIRED_PATHS ∧
      dictLookup (parse_lock_file inp.lockLines) q = some pinq ∧
      dictLookup (parse_submodule_status inp.statusLines) q = some obsq ∧
      pinq ≠ SENTINEL ∧ pinq ≠ obsq ∧
      (verify inp).events.getLast? = some (Event.error (mismatchMsg q pinq obsq)) ∧
      containsSub (mismatchMsg q pinq obsq).toList pinq.toList = true ∧
      containsSub (mismatchMsg q pinq obsq).toList obsq.toList = true := by
  have hsne : (parse_submodule_status inp.statusLines).isEmpty = false := by
    cases hst : parse_submodule_status inp.statusLines with
    | nil =>
      rw [hst] at hobs
      simp [dictLookup] at hobs
    | cons a t => rfl
  have hmex : ∃ q ∈ sortedRequired,
      mismatchAt (parse_lock_file inp.lockLines) (parse_submodule_status inp.statusLines) q
        = true := by
    refine ⟨p, mem_sortedRequired.2 hp, ?_⟩
    unfold mismatchAt
    simp only [hobs, hpin, Option.getD_some, Bool.and_eq_true, bne_iff_ne, ne_eq]
    exact ⟨hsent, hne⟩
  obtain ⟨hf, q, obsq, hq, hlq, hns, hno, hlast⟩ :=
    checkRequired_fatal_of_mismatch (parse_lock_file inp.lockLines)
      (parse_submodule_status inp.statusLines) sortedRequired hmex
  cases hlqpin : dictLookup (parse_lock_file inp.lockLines) q with
  | none =>
    rw [hlqpin] at hns
    simp at hns
  | some pinq =>
    rw [hlqpin] at hns hno hlast
    simp only [Option.getD_some] at hns hno hlast
    have hv := verify_statics inp ps h1 h2 h3 h4 h5 h6
    simp only [hsne, hf, Bool.false_eq_true, if_false, if_true, eq_self_iff_true] at hv
    have hec : (verify inp).exitCode = 1 := by rw [hv]
    have hev : (verify inp).events =
        (if (parse_lock_file inp.lockLines).any (fun kv => kv.2 == SENTINEL) then
          [Event.warn "pinned commits are placeholders and must be updated before release"]
        else []) ++
        (checkRequired (parse_lock_file inp.lockLines)
          (parse_submodule_status inp.statusLines) sortedRequired).1 := by rw [hv]
    have hne1 : (checkRequired (parse_lock_file inp.lockLines)
        (parse_submodule_status inp.statusLines) sortedRequired).1 ≠ [] := by
      intro hnil
      rw [hnil] at hlast
      simp [List.getLast?] at hlast
    refine ⟨hec, q, pinq, obsq, mem_sortedRequired.1 hq, hlqpin, hlq, hns, hno, ?_,
      (mismatchMsg_verbatim q pinq obsq).2.1, (mismatchMsg_verbatim q pinq obsq).2.2⟩
    rw [hev, List.getLast?_append_of_ne_nil _ hne1]
    exact hlast

/-- C1 witness. -/
theorem required_mismatch_fatal_witness : (verify exMismatch).exitCode = 1 :=
  (required_mismatch_fatal exMismatch
    ["cpp/third_party/usearch", "cpp/third_party/sqlite", "cpp/third_party/googletest",
      "cpp/third_party/libtorch-dist"]
    "cpp/third_party/googletest" "deadbeef" "cafef00dcafef00dcafef00dcafef00dcafef00d"
    (by decide) (by decide) rfl (by decide) (by decide) (by decide) (by decide)
    (by decide) (by decide) (by decide) (by decide)).1

/-- C2 counterexample: a lock entry for a non-required path whose non-sentinel
pin differs from the observed hash is not checked at all - the verifier exits
0, refuting the claim's quantification over all lock entries. -/
theorem nonrequired_mismatch_not_checked :
    dictLookup (parse_lock_file exNonRequired.lockLines) "thirdparty/extra" = some "deadbeef" ∧
    dictLookup (parse_submodule_status exNonRequired.statusLines) "thirdparty/extra" =
      some "cafef00dcafef00dcafef00dcafef00dcafef00d" ∧
    ("deadbeef" : String) ≠ SENTINEL ∧
    ("deadbeef" : String) ≠ "cafef00dcafef00dcafef00dcafef00dcafef00d" ∧
    (verify exNonRequired).exitCode = 0 := by
  decide

/-- C2 as amended: restricted to required paths, the invariant holds - under
passing static checks, a required path present in the observed state with a
non-sentinel pin differing from the observed hash makes the verifier exit
with code 1. -/
theorem required_entry_mismatch_fatal (inp : VerifierInput) (ps : List String)
    (p pin obs : String)
    (h1 : inp.gitmodulesExists = true) (h2 : inp.lockExists = true)
    (h3 : collectPaths inp.sections = .ok ps)
    (h4 : (REQUIRED_PATHS.filter (fun q => !ps.contains q)).isEmpty = true)
    (h5 : sortedRequired.find?
        (fun q => !containsSub (String.intercalate "\n" inp.lockLines).toList q.toList) = none)
    (h6 : sortedRequired.find?
        (fun q => (dictLookup (parse_lock_file inp.lockLines) q).isNone) = none)
    (hp : p ∈ REQUIRED_PATHS)
    (hobs : dictLookup (parse_submodule_status inp.statusLines) p = some obs)
    (hpin : dictLookup (parse_lock_file inp.lockLines) p = some pin)
    (hsent : pin ≠ SENTINEL) (hne : pin ≠ obs) :
    (verify inp).exitCode = 1 := by
  have hsne : (parse_submodule_status inp.statusLines).isEmpty = false := by
    cases hst : parse_submodule_status inp.statusLines with
    | nil =>
      rw [hst] at hobs
      simp [dictLookup] at hobs
    | cons a t => rfl
  have hmex : ∃ q ∈ sortedRequired,
      mismatchAt (parse_lock_file inp.lockLines) (parse_submodule_status inp.statusLines) q
        = true := by
    refine ⟨p, mem_sortedRequired.2 hp, ?_⟩
    unfold mismatchAt
    simp only [hobs, hpin, Option.getD_some, Bool.and_eq_true, bne_iff_ne, ne_eq]
    exact ⟨hsent, hne⟩
  have hf := (checkRequired_fatal_of_mismatch (parse_lock_file inp.lockLines)
    (parse_submodule_status inp.statusLines) sortedRequired hmex).1
  rw [verify_statics inp ps h1 h2 h3 h4 h5 h6, hsne, hf]
  rfl

/-- C2 amended-claim witness. -/
theorem required_entry_mismatch_fatal_witness : (verify exMismatch).exitCode = 1 :=
  required_entry_mismatch_fatal exMismatch
    ["cpp/third_party/usearch", "cpp/third_party/sqlite", "cpp/third_party/googletest",
      "cpp/third_party/libtorch-dist"]
    "cpp/third_party/googletest" "deadbeef" "cafef00dcafef00dcafef00dcafef00dcafef00d"
    (by decide) (by decide) rfl (by decide) (by decide) (by decide) (by decide)
    (by decide) (by decide) (by decide) (by decide)

lemma mem_ite_singleton {c : Prop} [Decidable c] {w e : Event}
    (he : e ∈ (if c then [w] else [])) : e = w := by
  split at he
  · exact List.mem_singleton.1 he
  · simp at he

/-- Every run either stops at a single fatal error, which is the last event
printed and everything before it is non-fatal, or finishes with exit code 0
having printed no error at all. -/
lemma verify_shape (inp : VerifierInput) :
    (∃ pre m, (verify inp).events = pre ++ [Event.error m] ∧
        (∀ e ∈ pre, isErrorEvent e = false) ∧ (verify inp).exitCode = 1) ∨
      ((∀ e ∈ (verify inp).events, isErrorEvent e = false) ∧
        (verify inp).exitCode = 0) := by
  unfold verify
  split
  · exact Or.inl ⟨[], _, rfl, by simp, rfl⟩
  · split
    · exact Or.inl ⟨[], _, rfl, by simp, rfl⟩
    · split
      · exact Or.inl ⟨[], _, rfl, by simp, rfl⟩
      · dsimp only
        split
        · exact Or.inl ⟨[], _, rfl, by simp, rfl⟩
        · split
          · exact Or.inl ⟨[], _, rfl, by simp, rfl⟩
          · split
            · exact Or.inl ⟨[], _, rfl, by simp, rfl⟩
            · split
              · refine Or.inr ⟨?_, rfl⟩
                intro e he
                rcases List.mem_append.1 he with hl | hr
                · rw [mem_ite_singleton hl]
                  rfl
                · rcases List.mem_cons.1 hr with rfl | hr2
                  · rfl
                  · rcases List.mem_singleton.1 hr2 with rfl
                    rfl
              · split
                · rename_i hr2
                  obtain ⟨pre, m, hpre, hall⟩ :=
                    (checkRequired_shape (parse_lock_file inp.lockLines)
                      (parse_submodule_status inp.statusLines) sortedRequired).1 hr2
                  rw [hpre]
                  refine Or.inl ⟨_ ++ pre, m, by rw [List.append_assoc], ?_, rfl⟩
                  intro e he
                  rcases List.mem_append.1 he with hl | hr
                  · rw [mem_ite_singleton hl]
                    rfl
                  · exact hall e hr
                · rename_i hr2
                  have hr2f : (checkRequired (parse_lock_file inp.lockLines)
                      (parse_submodule_status inp.statusLines) sortedRequired).2 = false :=
                    Bool.eq_false_iff.2 hr2
                  refine Or.inr ⟨?_, rfl⟩
                  intro e he
                  rcases List.mem_append.1 he with hl | hr
                  · rcases List.mem_append.1 hl with hl1 | hl2
                    · rw [mem_ite_singleton hl1]
                      rfl
                    · exact (checkRequired_shape (parse_lock_file inp.lockLines)
                        (parse_submodule_status inp.statusLines) sortedRequired).2 hr2f e hl2
                  · rcases List.mem_singleton.1 hr with rfl
                    rfl

/-- C8: every run exits 0 or 1; the exit code is 0 exactly when no fatal
error was printed (warnings never affect it); at most one error is printed
and never followed by further output, i.e. the process terminates at the
first fatal condition without aggregating several. -/
theorem fatal_immediate_warnings_nonblocking (inp : VerifierInput) :
    ((verify inp).exitCode = 0 ∨ (verify inp).exitCode = 1) ∧
    ((verify inp).exitCode = 0 ↔ ∀ e ∈ (verify inp).events, isErrorEvent e = false) ∧
    ((verify inp).events.filter isErrorEvent).length ≤ 1 ∧
    (∀ e ∈ (verify inp).events.dropLast, isErrorEvent e = false) := by
  rcases verify_shape inp with ⟨pre, m, hev, hall, hec⟩ | ⟨hall, hec⟩
  · refine ⟨Or.inr hec, ?_, ?_, ?_⟩
    · constructor
      · intro h0
        exact absurd (h0.symm.trans hec) (by decide)
      · intro hno
        exfalso
        have hm : Event.error m ∈ (verify inp).events := by
          rw [hev]
          exact List.mem_append_right _ (List.mem_singleton.2 rfl)
        have := hno (Event.error m) hm
        simp [isErrorEvent] at this
    · rw [hev, List.filter_append]
      have h1 : pre.filter isErrorEvent = [] := List.filter_eq_nil_iff.2 (by
        intro a ha
        rw [hall a ha]
        simp)
      rw [h1]
      simp [isErrorEvent]
    · have hdl : (pre ++ [Event.error m]).dropLast = pre := by simp
      rw [hev, hdl]
      exact hall
  · refine ⟨Or.inl hec, ⟨fun _ => hall, fun _ => hec⟩, ?_, ?_⟩
    · have h1 : (verify inp).events.filter isErrorEvent = [] := List.filter_eq_nil_iff.2 (by
        intro a ha
        rw [hall a ha]
        simp)
      rw [h1]
      simp
    · intro e he
      exact hall e ((List.dropLast_sublist _).subset he)

/-- C9: a required path missing from the parsed pin mapping is caught by the
stage-5 check (`lock file missing pinned_commit for ...`) or an even earlier
fatal stage, so the run exits 1 without ever printing a `commit mismatch`
diagnostic: the `<PIN_REQUIRED>` fallback of the comparison loop's lookup is
unreachable. -/
theorem pin_fallback_unreachable (inp : VerifierInput) (p : String)
    (hp : p ∈ REQUIRED_PATHS)
    (hnone : dictLookup (parse_lock_file inp.lockLines) p = none) :
    sortedRequired.find?
        (fun q => (dictLookup (parse_lock_file inp.lockLines) q).isNone) ≠ none ∧
    (verify inp).exitCode = 1 ∧
    ∀ e ∈ (verify inp).events, isMismatchEvent e = false := by
  have hps : p ∈ sortedRequired := mem_sortedRequired.2 hp
  have hfind : sortedRequired.find?
      (fun q => (dictLookup (parse_lock_file inp.lockLines) q).isNone) ≠ none := by
    intro hn
    have hpred := List.find?_eq_none.1 hn p hps
    rw [hnone] at hpred
    exact hpred rfl
  refine ⟨hfind, ?_⟩
  cases hg : inp.gitmodulesExists with
  | false =>
    have hv : verify inp = ⟨[Event.error ".gitmodules file is missing"], 1⟩ := by
      unfold verify
      rw [hg]
      rfl
    rw [hv]
    refine ⟨rfl, ?_⟩
    intro e he
    rcases List.mem_singleton.1 he with rfl
    decide
  | true =>
    cases hl : inp.lockExists with
    | false =>
      have hv : verify inp = ⟨[Event.error "cpp/submodules.lock is missing"], 1⟩ := by
        unfold verify
        rw [hg, hl]
        rfl
      rw [hv]
      refine ⟨rfl, ?_⟩
      intro e he
      rcases List.mem_singleton.1 he with rfl
      decide
    | true =>
      cases hcp : collectPaths inp.sections with
      | error e0 =>
        have hv : verify inp = ⟨[Event.error e0], 1⟩ := by
          unfold verify
          rw [hg, hl, hcp]
          rfl
        rw [hv]
        refine ⟨rfl, ?_⟩
        intro e he
        rcases List.mem_singleton.1 he with rfl
        obtain ⟨name, tail, hn, he0⟩ := collectPaths_error_shape hcp
        show strStartsWith e0 "commit mismatch for " = false
        rw [he0]
        exact strStartsWith_append_false (strStartsWith_head hn rfl) rfl (by decide)
      | ok ps =>
        by_cases hm : (REQUIRED_PATHS.filter (fun q => !ps.contains q)).isEmpty = true
        · cases hm5 : sortedRequired.find?
              (fun q => !containsSub (String.intercalate "\n" inp.lockLines).toList q.toList)
            with
          | some q0 =>
            have hv : verify inp = ⟨[Event.error ("lock file does not mention " ++ q0)], 1⟩ := by
              unfold verify
              rw [hg, hl, hcp]
              simp only [Bool.not_true, Bool.false_eq_true, if_false, hm]
              rw [hm5]
            rw [hv]
            refine ⟨rfl, ?_⟩
            intro e he
            rcases List.mem_singleton.1 he with rfl
            show strStartsWith _ "commit mismatch for " = false
            exact strStartsWith_append_false rfl rfl (by decide)
          | none =>
            obtain ⟨q0, hq0⟩ := Option.ne_none_iff_exists'.1 hfind
            have hv : verify inp =
                ⟨[Event.error ("lock file missing pinned_commit for " ++ q0)], 1⟩ := by
              unfold verify
              rw [hg, hl, hcp]
              simp only [Bool.not_true, Bool.false_eq_true, if_false, hm]
              rw [hm5, hq0]
            rw [hv]
            refine ⟨rfl, ?_⟩
            intro e he
            rcases List.mem_singleton.1 he with rfl
            show strStartsWith _ "commit mismatch for " = false
            exact strStartsWith_append_false rfl rfl (by decide)
        · have hm' : (REQUIRED_PATHS.filter (fun q => !ps.contains q)).isEmpty = false :=
            Bool.eq_false_iff.2 hm
          have hv : verify inp = ⟨[Event.error ("missing required submodule paths: " ++
              pyListRepr (pySorted (REQUIRED_PATHS.filter (fun q => !ps.contains q))))], 1⟩ := by
            unfold verify
            rw [hg, hl, hcp]
            simp only [Bool.not_true, Bool.false_eq_true, if_false, hm', Bool.not_false,
              eq_self_iff_true, if_true]
          rw [hv]
          refine ⟨rfl, ?_⟩
          intro e he
          rcases List.mem_singleton.1 he with rfl
          show strStartsWith _ "commit mismatch for " = false
          exact strStartsWith_append_false rfl rfl (by decide)

/-- C9 witness. -/
theorem pin_fallback_unreachable_witness : (verify exNoPin).exitCode = 1 :=
  (pin_fallback_unreachable exNoPin "cpp/third_party/googletest"
    (by decide) (by decide)).2.1
